import Mathlib

/-!
Shallow embedding of the card-fingerprinting and price-trend core of the
collectorstream repository (src/analysis/fingerprint.py and
src/analysis/portfolio_tracker.py), together with proofs settling the
frozen claims about it.

Modelling conventions:
* Python `str` is modelled by Lean `String` / `List Char`; all the titles,
  keywords and fingerprint fields in the source are ASCII, and `Char.toLower`
  agrees with Python `str.lower` on ASCII.
* Python floats are modelled by `ℚ`; every constant in the source
  (0.30, 0.15, 0.10, 1.3, ...) is exactly representable and no comparison in
  any claim is close enough to a binary-float rounding boundary to differ.
* `difflib.SequenceMatcher` is modelled without the autojunk heuristic, which
  only activates on haystacks of 200+ characters (longer than any listing
  title handled here).
-/

attribute [local semireducible] Rat.add Rat.mul Rat.inv Rat.sub Rat.ofScientific

/-- ASCII model of Python `str.lower` applied to each character. -/
def lowerL (s : List Char) : List Char := s.map Char.toLower

/-- The characters Python `str.split()`, `str.strip()` and the regex class
`\s` treat as whitespace (ASCII fragment). -/
def isPySpace (c : Char) : Bool :=
  c = ' ' || c = '\t' || c = '\n' || c = '\r' || c = '\x0b' || c = '\x0c'

/-- Python substring containment `needle in haystack` on char lists. -/
def isSubL (needle haystack : List Char) : Bool :=
  haystack.tails.any (fun t => needle.isPrefixOf t)

/-- Python `str.strip()` (ASCII whitespace). -/
def pyStrip (s : List Char) : List Char :=
  ((s.dropWhile isPySpace).reverse.dropWhile isPySpace).reverse

theorem length_dropWhile_le {α : Type} (p : α → Bool) (l : List α) :
    (l.dropWhile p).length ≤ l.length := by
  induction l with
  | nil => simp [List.dropWhile]
  | cons x xs ih =>
    by_cases hp : p x
    · simp only [List.dropWhile, hp, if_pos, List.length_cons]; omega
    · simp [List.dropWhile, hp]

/-- Python `str.split()` with no argument: split on whitespace runs,
discarding empty pieces. -/
def pySplit : List Char → List (List Char)
  | [] => []
  | c :: cs =>
    if isPySpace c then pySplit cs
    else (c :: cs.takeWhile (fun x => !isPySpace x)) ::
      pySplit (cs.dropWhile (fun x => !isPySpace x))
termination_by l => l.length
decreasing_by
  · simp only [List.length_cons]; omega
  · simp only [List.length_cons]
    have h := length_dropWhile_le (fun x => !isPySpace x) cs
    omega

/-- Length of the common prefix of two char lists. -/
def commonPrefixLen : List Char → List Char → Nat
  | a :: as, b :: bs => if a = b then commonPrefixLen as bs + 1 else 0
  | _, _ => 0

/-- The candidate matching blocks examined by the model of
`difflib.SequenceMatcher.find_longest_match`: every start pair `(i, j)`
with the length of the common prefix of the two tails there. -/
def lmCandidates (a b : List Char) : List (Nat × Nat × Nat) :=
  (List.range (a.length + 1)).flatMap (fun i =>
    (List.range (b.length + 1)).map (fun j =>
      (i, j, commonPrefixLen (a.drop i) (b.drop j))))

/-- Keep the first candidate of maximal block size (ties keep the earlier
candidate, matching difflib's earliest-in-a-then-earliest-in-b rule). -/
def chooseBest (l : List (Nat × Nat × Nat)) : Nat × Nat × Nat :=
  l.foldl (fun best c => if best.2.2 < c.2.2 then c else best) (0, 0, 0)

/-- Model of `difflib.SequenceMatcher.find_longest_match` over the whole
sequences (no junk): the longest matching block `(i, j, size)`. -/
def findLongestMatch (a b : List Char) : Nat × Nat × Nat :=
  chooseBest (lmCandidates a b)

theorem commonPrefixLen_le_left (a b : List Char) :
    commonPrefixLen a b ≤ a.length := by
  induction a generalizing b with
  | nil => simp [commonPrefixLen]
  | cons x xs ih =>
    cases b with
    | nil => simp [commonPrefixLen]
    | cons y ys =>
      unfold commonPrefixLen
      split
      · have := ih ys; simp; omega
      · simp

theorem commonPrefixLen_le_right (a b : List Char) :
    commonPrefixLen a b ≤ b.length := by
  induction a generalizing b with
  | nil => simp [commonPrefixLen]
  | cons x xs ih =>
    cases b with
    | nil => simp [commonPrefixLen]
    | cons y ys =>
      unfold commonPrefixLen
      split
      · have := ih ys; simp; omega
      · simp

theorem commonPrefixLen_pos_ne_nil {a b : List Char}
    (h : commonPrefixLen a b ≠ 0) : a ≠ [] ∧ b ≠ [] := by
  cases a with
  | nil => simp [commonPrefixLen] at h
  | cons x xs =>
    cases b with
    | nil => simp [commonPrefixLen] at h
    | cons y ys => exact ⟨by simp, by simp⟩

theorem foldlBest_mem (l : List (Nat × Nat × Nat)) (init : Nat × Nat × Nat) :
    l.foldl (fun best c => if best.2.2 < c.2.2 then c else best) init
      ∈ init :: l := by
  induction l generalizing init with
  | nil => simp
  | cons x xs ih =>
    simp only [List.foldl_cons]
    by_cases hp : init.2.2 < x.2.2
    · rw [if_pos hp]
      rcases List.mem_cons.mp (ih x) with h | h
      · simp [h]
      · simp [List.mem_cons, h]
    · rw [if_neg hp]
      rcases List.mem_cons.mp (ih init) with h | h
      · simp [h]
      · simp [List.mem_cons, h]

theorem chooseBest_mem (l : List (Nat × Nat × Nat)) :
    chooseBest l ∈ (0, 0, 0) :: l :=
  foldlBest_mem l (0, 0, 0)

theorem findLongestMatch_spec (a b : List Char) :
    findLongestMatch a b = (0, 0, 0) ∨
      ((findLongestMatch a b).1 ≤ a.length ∧
       (findLongestMatch a b).2.1 ≤ b.length ∧
       (findLongestMatch a b).2.2 =
         commonPrefixLen (a.drop (findLongestMatch a b).1)
           (b.drop (findLongestMatch a b).2.1)) := by
  rcases List.mem_cons.mp (chooseBest_mem (lmCandidates a b)) with h | h
  · left; exact h
  · right
    rcases List.mem_flatMap.mp h with ⟨i, hi, hm⟩
    rcases List.mem_map.mp hm with ⟨j, hj, he⟩
    have hi' := List.mem_range.mp hi
    have hj' := List.mem_range.mp hj
    have he' : findLongestMatch a b =
        (i, j, commonPrefixLen (a.drop i) (b.drop j)) := he.symm
    rw [he']
    refine ⟨?_, ?_, ?_⟩ <;> simp <;> omega

theorem findLongestMatch_bounds (a b : List Char)
    (h : (findLongestMatch a b).2.2 ≠ 0) :
    (findLongestMatch a b).1 < a.length ∧
    (findLongestMatch a b).2.1 < b.length ∧
    (findLongestMatch a b).1 + (findLongestMatch a b).2.2 ≤ a.length ∧
    (findLongestMatch a b).2.1 + (findLongestMatch a b).2.2 ≤ b.length := by
  rcases findLongestMatch_spec a b with hs | ⟨h1, h2, h3⟩
  · rw [hs] at h; simp at h
  · rw [h3] at h ⊢
    have hne := commonPrefixLen_pos_ne_nil h
    have hla : (findLongestMatch a b).1 < a.length := by
      rcases Nat.lt_or_ge (findLongestMatch a b).1 a.length with hlt | hge
      · exact hlt
      · exact absurd (List.drop_eq_nil_of_le hge) hne.1
    have hlb : (findLongestMatch a b).2.1 < b.length := by
      rcases Nat.lt_or_ge (findLongestMatch a b).2.1 b.length with hlt | hge
      · exact hlt
      · exact absurd (List.drop_eq_nil_of_le hge) hne.2
    have ha := commonPrefixLen_le_left (a.drop (findLongestMatch a b).1)
      (b.drop (findLongestMatch a b).2.1)
    have hb := commonPrefixLen_le_right (a.drop (findLongestMatch a b).1)
      (b.drop (findLongestMatch a b).2.1)
    rw [List.length_drop] at ha
    rw [List.length_drop] at hb
    exact ⟨hla, hlb, by omega, by omega⟩

/-- Total size of the matching blocks of `difflib.SequenceMatcher`
(`get_matching_blocks` summed): recursively take the longest match and
recurse on the pieces to its left and to its right. -/
def matchesTotal (a b : List Char) : Nat :=
  if h : (findLongestMatch a b).2.2 = 0 then 0
  else
    matchesTotal (a.take (findLongestMatch a b).1)
        (b.take (findLongestMatch a b).2.1) +
      (findLongestMatch a b).2.2 +
      matchesTotal (a.drop ((findLongestMatch a b).1 + (findLongestMatch a b).2.2))
        (b.drop ((findLongestMatch a b).2.1 + (findLongestMatch a b).2.2))
termination_by a.length + b.length
decreasing_by
  · have hb := findLongestMatch_bounds a b h
    simp only [List.length_take]
    omega
  · have hb := findLongestMatch_bounds a b h
    simp only [List.length_drop]
    omega

theorem matchesTotal_le (a b : List Char) :
    matchesTotal a b ≤ a.length ∧ matchesTotal a b ≤ b.length := by
  generalize hn : a.length + b.length = n
  induction n using Nat.strong_induction_on generalizing a b with
  | _ n ih =>
    unfold matchesTotal
    split
    · simp
    · rename_i h
      have hb := findLongestMatch_bounds a b h
      have h1 := ih ((a.take (findLongestMatch a b).1).length +
          (b.take (findLongestMatch a b).2.1).length)
        (by simp only [List.length_take]; omega)
        (a.take (findLongestMatch a b).1) (b.take (findLongestMatch a b).2.1) rfl
      have h2 := ih
        ((a.drop ((findLongestMatch a b).1 + (findLongestMatch a b).2.2)).length +
         (b.drop ((findLongestMatch a b).2.1 + (findLongestMatch a b).2.2)).length)
        (by simp only [List.length_drop]; omega)
        (a.drop ((findLongestMatch a b).1 + (findLongestMatch a b).2.2))
        (b.drop ((findLongestMatch a b).2.1 + (findLongestMatch a b).2.2)) rfl
      simp only [List.length_take, List.length_drop] at h1 h2
      omega

/-- Model of `difflib.SequenceMatcher.ratio()`: `2*M/T` where `M` is the total size of
the matching blocks and `T` the total length, or 1.0 when both are empty. -/
def simScore (a b : List Char) : ℚ :=
  if a.length + b.length = 0 then 1
  else 2 * (matchesTotal a b : ℚ) / ((a.length : ℚ) + (b.length : ℚ))

theorem simScore_nonneg (a b : List Char) : 0 ≤ simScore a b := by
  unfold simScore
  split
  · norm_num
  · rename_i h
    apply div_nonneg
    · positivity
    · have : (0 : ℚ) ≤ (a.length : ℚ) := by positivity
      have : (0 : ℚ) ≤ (b.length : ℚ) := by positivity
      linarith

theorem simScore_le_one (a b : List Char) : simScore a b ≤ 1 := by
  unfold simScore
  split
  · norm_num
  · rename_i h
    have hm := matchesTotal_le a b
    rw [div_le_one (by exact_mod_cast Nat.pos_of_ne_zero h)]
    have h1 : (matchesTotal a b : ℚ) ≤ (a.length : ℚ) := by exact_mod_cast hm.1
    have h2 : (matchesTotal a b : ℚ) ≤ (b.length : ℚ) := by exact_mod_cast hm.2
    linarith

/-- Model of `_fuzzy_match(needle, haystack)` from fingerprint.py: 1.0 on substring
containment, 0.9 when every word of a multi-word needle is contained,
otherwise the SequenceMatcher similarity when above 0.6, else 0.0. -/
def fuzzyMatch (needle haystack : String) : ℚ :=
  let nl := pyStrip (lowerL needle.toList)
  let hl := lowerL haystack.toList
  if isSubL nl hl then 1
  else if (pySplit nl).length > 1 && (pySplit nl).all (fun w => isSubL w hl) then 0.9
  else if 0.6 < simScore nl hl then simScore nl hl
  else 0

theorem fuzzyMatch_bounds (needle haystack : String) :
    0 ≤ fuzzyMatch needle haystack ∧ fuzzyMatch needle haystack ≤ 1 := by
  unfold fuzzyMatch
  simp only []
  split
  · norm_num
  · split
    · norm_num
    · split
      · exact ⟨simScore_nonneg _ _, simScore_le_one _ _⟩
      · norm_num

/-- Decimal digits of a natural number, most significant first
(Python `str` on a non-negative int). Structural recursion on a fuel
argument (`n` itself suffices, since `n / 10 < n`) keeps the definition
kernel-reducible. -/
def natDigitsAux : Nat → Nat → List Char
  | 0, n => [Nat.digitChar n]
  | fuel + 1, n =>
    if n < 10 then [Nat.digitChar n]
    else natDigitsAux fuel (n / 10) ++ [Nat.digitChar (n % 10)]

def natDigits (n : Nat) : List Char := natDigitsAux n n

/-- Python `str` on an int. -/
def intStr (i : Int) : String :=
  if i < 0 then "-" ++ ⟨natDigits i.natAbs⟩ else ⟨natDigits i.natAbs⟩

theorem natDigitsAux_ne_nil (fuel n : Nat) : natDigitsAux fuel n ≠ [] := by
  cases fuel with
  | zero => simp [natDigitsAux]
  | succ m =>
    unfold natDigitsAux
    split
    · simp
    · simp

theorem natDigits_ne_nil (n : Nat) : natDigits n ≠ [] := natDigitsAux_ne_nil n n

/-- The `MANUFACTURERS` list from fingerprint.py. -/
def MANUFACTURERS : List String :=
  ["panini", "topps", "leaf", "donruss", "bowman", "upper deck", "hoops",
   "fleer", "sage", "press pass", "sp authentic", "immaculate",
   "national treasures"]

/-- The `SETS` list from fingerprint.py. -/
def SETS : List String :=
  ["prizm", "contenders", "crown royale", "mosaic", "select", "optic",
   "chronicles", "donruss", "elite", "absolute", "spectra", "flawless",
   "immaculate", "national treasures", "noir", "one and one", "court kings",
   "revolution", "status", "recon", "origins", "obsidian", "certified",
   "hoops", "prestige", "score", "playoff", "luminance", "illusions",
   "flux", "zenith", "clearly donruss", "clearly rated"]

/-- The `PARALLELS` list from fingerprint.py. -/
def PARALLELS : List String :=
  ["base", "silver", "gold", "red", "blue", "green", "orange", "purple",
   "pink", "black", "white", "yellow", "bronze", "platinum", "emerald",
   "ruby", "sapphire", "teal", "neon green", "neon orange", "neon pink",
   "pink shimmer", "cracked ice", "mojo", "hyper", "holo",
   "ice", "camo", "tie-dye", "tiger stripe", "snakeskin", "peacock",
   "disco", "fast break", "choice", "scope", "wave", "laser",
   "no huddle", "press proof", "rated rookie", "downtown"]

/-- The `AUTO_KEYWORDS` list from fingerprint.py. -/
def AUTO_KEYWORDS : List String :=
  ["auto", "autograph", "autographed", "on card auto", "on-card auto"]

/-- The `ROOKIE_KEYWORDS` list from fingerprint.py. -/
def ROOKIE_KEYWORDS : List String := ["rc", "rookie", "rookie card"]

/-- The check `any(kw in title_lower for kw in AUTO_KEYWORDS)`. -/
def titleHasAutoKeyword (titleLower : List Char) : Bool :=
  AUTO_KEYWORDS.any (fun kw => isSubL kw.toList titleLower)

/-- Canonical card fingerprint, the dict shape produced by
`build_fingerprint` (keys player/year/manufacturer/set/parallel/numbered/
auto/rookie/grade). `year` and `numbered` are optional ints; Python
truthiness treats `None` and `0` alike as absent. -/
structure Fingerprint where
  player : String
  year : Option Int
  manufacturer : String
  set : String
  parallel : String
  numbered : Option Int
  auto : Bool
  rookie : Bool
  grade : String

/-- The `weights` dict of `score_title_match`. -/
def wPlayer : ℚ := 0.30
def wYear : ℚ := 0.15
def wSet : ℚ := 0.20
def wParallel : ℚ := 0.15
def wAuto : ℚ := 0.10
def wGrade : ℚ := 0.05
def wNumbered : ℚ := 0.05

/-- Player-name component of `score_title_match`. -/
def playerComp (fp : Fingerprint) (title : String) : ℚ :=
  if fp.player ≠ "" then wPlayer * fuzzyMatch fp.player title else 0

/-- Word characters of the regex class `\w` (ASCII fragment). -/
def isWordChar (c : Char) : Bool := c.isAlphanum || c = '_'

def optWordChar : Option Char → Bool
  | none => false
  | some c => isWordChar c

/-- Regex `\b`: a word boundary lies between two neighbouring positions
whose word-character status differs (string ends count as non-word). -/
def boundaryB (left right : Option Char) : Bool :=
  optWordChar left != optWordChar right

/-- Python `s[-2:]`: the last two characters (whole string if shorter). -/
def lastTwo (s : String) : List Char :=
  s.toList.drop (s.toList.length - 2)

/-- Does the regex `\b\d{4}-<short>\b` (from the year-range check in
`score_title_match`) match at this position, given the previous character? -/
def yearRangeAt (short : List Char) (prev : Option Char) (t : List Char) : Bool :=
  match t with
  | c1 :: c2 :: c3 :: c4 :: rest =>
    boundaryB prev (some c1) && c1.isDigit && c2.isDigit && c3.isDigit &&
    c4.isDigit &&
    (match rest with
     | '-' :: rest2 =>
       short.isPrefixOf rest2 &&
       boundaryB (((short.getLast?).orElse (fun _ => some '-')))
         ((rest2.drop short.length).head?)
     | _ => false)
  | _ => false

/-- Model of `re.search` of the year-range regex: try every position left
to right. -/
def searchYearRange (short : List Char) : Option Char → List Char → Bool
  | prev, [] => yearRangeAt short prev []
  | prev, c :: rest =>
    yearRangeAt short prev (c :: rest) || searchYearRange short (some c) rest

/-- Year component of `score_title_match`: full weight when `str(year)`
occurs in the title, or when a year range like "2024-25" does. -/
def yearComp (fp : Fingerprint) (title : String) : ℚ :=
  match fp.year with
  | none => 0
  | some y =>
    if y = 0 then 0
    else if isSubL (intStr y).toList title.toList then wYear
    else if searchYearRange (lastTwo (intStr y)) none title.toList then wYear
    else 0

/-- Set-name component of `score_title_match`. -/
def setComp (fp : Fingerprint) (title : String) : ℚ :=
  if fp.set ≠ "" then wSet * fuzzyMatch fp.set title else 0

/-- Parallel component of `score_title_match`: fuzzy weight for a wanted
non-Base parallel; for "Base", half weight when no parallel keyword
appears in the title. -/
def parallelComp (fp : Fingerprint) (title : String) : ℚ :=
  if fp.parallel ≠ "" ∧ fp.parallel ≠ "Base" then
    wParallel * fuzzyMatch fp.parallel title
  else if fp.parallel = "Base" then
    if !(PARALLELS.any (fun p =>
        p ≠ "base" && isSubL p.toList (lowerL title.toList))) then
      wParallel * 0.5
    else 0
  else 0

/-- Autograph component of `score_title_match`: full weight when wanted and
present; minus half weight when not wanted but present. -/
def autoComp (fp : Fingerprint) (title : String) : ℚ :=
  if fp.auto then
    if titleHasAutoKeyword (lowerL title.toList) then wAuto else 0
  else
    if titleHasAutoKeyword (lowerL title.toList) then -(wAuto * 0.5) else 0

/-- Python `str.replace(" ", "")`. -/
def removeSpaces (s : List Char) : List Char := s.filter (fun c => c ≠ ' ')

/-- Grade component of `score_title_match`. -/
def gradeComp (fp : Fingerprint) (title : String) : ℚ :=
  if fp.grade ≠ "" ∧ fp.grade ≠ "Raw" then
    if isSubL (lowerL fp.grade.toList) (lowerL title.toList) then wGrade
    else if isSubL (removeSpaces (lowerL fp.grade.toList))
        (removeSpaces (lowerL title.toList)) then wGrade * 0.8
    else 0
  else 0

/-- Numbered component of `score_title_match`. -/
def numberedComp (fp : Fingerprint) (title : String) : ℚ :=
  match fp.numbered with
  | none => 0
  | some n =>
    if n = 0 then 0
    else if isSubL ('/' :: (intStr n).toList) title.toList ||
        isSubL ('#' :: (intStr n).toList) title.toList then wNumbered
    else if isSubL (intStr n).toList title.toList then wNumbered * 0.5
    else 0

/-- Model of `score_title_match(title, fingerprint)` from fingerprint.py: 0.0 for an
absent title, otherwise the weighted component sum clamped to [0.0, 1.0]. -/
def score_title_match (title : String) (fp : Fingerprint) : ℚ :=
  if title = "" then 0
  else
    max 0 (min 1
      (playerComp fp title + yearComp fp title + setComp fp title +
       parallelComp fp title + autoComp fp title + gradeComp fp title +
       numberedComp fp title))

/-- Python `str.title()` (ASCII): uppercase a letter following a non-letter,
lowercase a letter following a letter. -/
def pyTitleAux : List Char → Bool → List Char
  | [], _ => []
  | c :: cs, prevAlpha =>
    (if c.isAlpha then (if prevAlpha then c.toLower else c.toUpper) else c) ::
      pyTitleAux cs c.isAlpha

def pyTitle (s : String) : String := ⟨pyTitleAux s.toList false⟩

/-- Stable insertion for Python `sorted(..., key=len, reverse=True)`:
an element moves past only strictly longer ones, so equal-length entries
keep their original order. -/
def insertByLenDesc (x : String) : List String → List String
  | [] => [x]
  | y :: ys =>
    if x.length < y.length then y :: insertByLenDesc x ys else x :: y :: ys

def sortByLenDesc (l : List String) : List String := l.foldr insertByLenDesc []

/-- Does `p` match at some position of `t` (regex `re.search`)? -/
def searchAny (p : List Char → Bool) (t : List Char) : Bool := t.tails.any p

/-- Match `<lit>\s*` then check the rest with `tailCheck` (the shape shared
by every entry of `GRADE_PATTERNS`; the `\s*` is deterministic because no
continuation starts with whitespace). -/
def gradeAt (lit : List Char) (tailCheck : List Char → Bool)
    (t : List Char) : Bool :=
  lit.isPrefixOf t && tailCheck ((t.drop lit.length).dropWhile isPySpace)

/-- Regex tail `9\.?5` (greedy optional dot). -/
def tail95 : List Char → Bool
  | '9' :: '.' :: '5' :: _ => true
  | '9' :: '5' :: _ => true
  | _ => false

/-- Regex tail `9(?!\.)`: a 9 not followed by a dot. -/
def tail9NoDot : List Char → Bool
  | '9' :: '.' :: _ => false
  | '9' :: _ => true
  | _ => false

def hasPsa10 (t : List Char) : Bool :=
  searchAny (gradeAt "psa".toList (fun r => "10".toList.isPrefixOf r)) t

def hasPsa9 (t : List Char) : Bool :=
  searchAny (gradeAt "psa".toList (fun r => "9".toList.isPrefixOf r)) t

def hasPsa8 (t : List Char) : Bool :=
  searchAny (gradeAt "psa".toList (fun r => "8".toList.isPrefixOf r)) t

def hasPsa7 (t : List Char) : Bool :=
  searchAny (gradeAt "psa".toList (fun r => "7".toList.isPrefixOf r)) t

def hasBgs10 (t : List Char) : Bool :=
  searchAny (gradeAt "bgs".toList (fun r => "10".toList.isPrefixOf r)) t

def hasBgs95 (t : List Char) : Bool :=
  searchAny (gradeAt "bgs".toList tail95) t

def hasBgs9 (t : List Char) : Bool :=
  searchAny (gradeAt "bgs".toList tail9NoDot) t

def hasSgc10 (t : List Char) : Bool :=
  searchAny (gradeAt "sgc".toList (fun r => "10".toList.isPrefixOf r)) t

def hasSgc95 (t : List Char) : Bool :=
  searchAny (gradeAt "sgc".toList tail95) t

def hasSgc9 (t : List Char) : Bool :=
  searchAny (gradeAt "sgc".toList tail9NoDot) t

def hasGemMint (t : List Char) : Bool :=
  searchAny (gradeAt "gem".toList (fun r => "mint".toList.isPrefixOf r)) t

/-- The `GRADE_PATTERNS` list from fingerprint.py, in source order. -/
def GRADE_PATTERNS : List ((List Char → Bool) × String) :=
  [(hasPsa10, "PSA 10"), (hasPsa9, "PSA 9"), (hasPsa8, "PSA 8"),
   (hasPsa7, "PSA 7"), (hasBgs10, "BGS 10"), (hasBgs95, "BGS 9.5"),
   (hasBgs9, "BGS 9"), (hasSgc10, "SGC 10"), (hasSgc95, "SGC 9.5"),
   (hasSgc9, "SGC 9"), (hasGemMint, "PSA 10")]

/-- The grade loop of `parse_title`: first matching pattern wins. -/
def findGrade (titleLower : List Char) : Option String :=
  (GRADE_PATTERNS.find? (fun pr => pr.1 titleLower)).map (fun pr => pr.2)

/-- Match of `YEAR_RE` = `\b(20\d{2})(?:-\d{2})?\b` at one position: the optional
`-\d{2}` never changes group 1, and a following `-` is itself a word
boundary, so a position matches exactly when a word boundary precedes
`20dd` and the character after the four digits is not a word character. -/
def yearAt (prev : Option Char) (t : List Char) : Option Int :=
  match t with
  | '2' :: '0' :: c3 :: c4 :: rest =>
    if boundaryB prev (some '2') && c3.isDigit && c4.isDigit &&
        !(optWordChar rest.head?) then
      some (2000 + 10 * ((c3.toNat : Int) - 48) + ((c4.toNat : Int) - 48))
    else none
  | _ => none

/-- Model of `YEAR_RE.search`: leftmost match, tracking the previous character for
the word boundary. -/
def searchYear : Option Char → List Char → Option Int
  | prev, [] => yearAt prev []
  | prev, c :: rest =>
    match yearAt prev (c :: rest) with
    | some y => some y
    | none => searchYear (some c) rest

/-- Value of a digit run (Python `int` on the captured group). -/
def digitsVal (ds : List Char) : Nat :=
  ds.foldl (fun n c => n * 10 + (c.toNat - 48)) 0

/-- Match of `NUMBERED_RE` = `(?:/|#|numbered\s*)(\d+)` (IGNORECASE) at one
position: the three alternatives start with distinct characters, and the
greedy `\d+` takes the maximal digit run. -/
def numberedTrigger (c : Char) (rest : List Char) : Option Nat :=
  if c = '/' then
    if rest.takeWhile Char.isDigit ≠ [] then
      some (digitsVal (rest.takeWhile Char.isDigit))
    else none
  else if c = '#' then
    if rest.takeWhile Char.isDigit ≠ [] then
      some (digitsVal (rest.takeWhile Char.isDigit))
    else none
  else if lowerL ((c :: rest).take 8) = "numbered".toList then
    if (((c :: rest).drop 8).dropWhile isPySpace).takeWhile Char.isDigit ≠ [] then
      some (digitsVal
        ((((c :: rest).drop 8).dropWhile isPySpace).takeWhile Char.isDigit))
    else none
  else none

def numberedAt : List Char → Option Nat
  | [] => none
  | c :: rest => numberedTrigger c rest

/-- Model of `NUMBERED_RE.search`: leftmost position with a match. -/
def numberedSearch (t : List Char) : Option Nat := t.tails.findSome? numberedAt

/-- The result dict of `parse_title` (populated branch). -/
structure ParsedTitle where
  player_name : Option String
  card_year : Option Int
  manufacturer : Option String
  set_name : Option String
  parallel : Option String
  is_numbered : Nat
  numbered_to : Option Int
  is_autograph : Nat
  is_rookie : Nat
  grade : Option String

/-- Model of `parse_title(title, player_name)` from fingerprint.py. A falsy title
(Python `None` or `""`) returns the empty dict, modelled as `none`. -/
def parse_title (title : String) (player_name : Option String) :
    Option ParsedTitle :=
  if title = "" then none
  else
    some
      { player_name := player_name
        card_year := searchYear none title.toList
        manufacturer :=
          (MANUFACTURERS.find? (fun m =>
            isSubL m.toList (lowerL title.toList))).map pyTitle
        set_name :=
          ((sortByLenDesc SETS).find? (fun s =>
            isSubL s.toList (lowerL title.toList))).map pyTitle
        parallel :=
          ((sortByLenDesc PARALLELS).find? (fun p =>
            p ≠ "base" && isSubL p.toList (lowerL title.toList))).map pyTitle
        is_numbered := if (numberedSearch title.toList).isSome then 1 else 0
        numbered_to := (numberedSearch title.toList).map (fun n => (n : Int))
        is_autograph :=
          if titleHasAutoKeyword (lowerL title.toList) then 1 else 0
        is_rookie :=
          if ROOKIE_KEYWORDS.any (fun kw =>
            isSubL kw.toList (lowerL title.toList)) then 1 else 0
        grade := findGrade (lowerL title.toList) }

/-- The year token of `build_ebay_query` (appended when `fingerprint["year"]`
is truthy). -/
def yearPart (fp : Fingerprint) : List String :=
  match fp.year with
  | some y => if y ≠ 0 then [intStr y] else []
  | none => []

/-- The set token of `build_ebay_query` (levels 1-3, truthy set). -/
def setPart (fp : Fingerprint) (level : Nat) : List String :=
  if level ≤ 3 ∧ fp.set ≠ "" then [fp.set] else []

/-- The parallel token of `build_ebay_query` (levels 1-2, truthy non-Base
parallel). -/
def parallelPart (fp : Fingerprint) (level : Nat) : List String :=
  if level ≤ 2 ∧ fp.parallel ≠ "" ∧ fp.parallel ≠ "Base" then [fp.parallel]
  else []

/-- The level-1 tokens of `build_ebay_query`: auto flag, grade, numbering. -/
def level1Part (fp : Fingerprint) (level : Nat) : List String :=
  if level ≤ 1 then
    (if fp.auto then ["auto"] else []) ++
    (if fp.grade ≠ "" ∧ fp.grade ≠ "Raw" then [fp.grade] else []) ++
    (match fp.numbered with
     | some n => if n ≠ 0 then ["/" ++ intStr n] else []
     | none => [])
  else []

/-- The `parts` list assembled by `build_ebay_query`: the player
unconditionally, then each further field guarded by truthiness and level. -/
def buildEbayQueryParts (fp : Fingerprint) (level : Nat) : List String :=
  [fp.player] ++ yearPart fp ++ setPart fp level ++ parallelPart fp level ++
    level1Part fp level

/-- Model of `build_ebay_query(fingerprint, level)` from fingerprint.py. -/
def build_ebay_query (fp : Fingerprint) (level : Nat) : String :=
  String.intercalate " " (buildEbayQueryParts fp level)

/-- Model of `build_cardladder_query`: player name only. -/
def build_cardladder_query (fp : Fingerprint) : String := fp.player

/-- Sorted insertion of a date key (ascending), for Python `sorted(keys)`;
dates are modelled as naturals since ISO date strings sort like numbers. -/
def insertNatAsc (x : Nat) : List Nat → List Nat
  | [] => [x]
  | y :: ys => if y ≤ x then y :: insertNatAsc x ys else x :: y :: ys

def sortNatAsc (l : List Nat) : List Nat := l.foldr insertNatAsc []

/-- First occurrences of the keys in order (the keys of the Python dict
built by insertion). -/
def dictKeysAux : List Nat → List Nat → List Nat
  | [], _ => []
  | d :: ds, seen =>
    if seen.contains d then dictKeysAux ds seen
    else d :: dictKeysAux ds (d :: seen)

def dictKeys (l : List Nat) : List Nat := dictKeysAux l []

/-- The daily aggregation of `calculate_trends`: group the price history by
date, average each day's prices, and order by date. -/
def dailyAvgs (history : List (Nat × ℚ)) : List (Nat × ℚ) :=
  (sortNatAsc (dictKeys (history.map Prod.fst))).map (fun d =>
    (d, ((history.filter (fun h => h.1 = d)).map Prod.snd).sum /
      (((history.filter (fun h => h.1 = d)).length : ℚ))))

/-- The inner `_ma(prices, n)` of `calculate_trends`: mean of the last `n`
daily points, or of all of them when fewer than `n` exist. -/
def maOf (prices : List (Nat × ℚ)) (n : Nat) : Option ℚ :=
  if prices.length < 1 then none
  else if prices.length ≥ n then
    some (((prices.drop (prices.length - n)).map Prod.snd).sum /
      ((prices.drop (prices.length - n)).length : ℚ))
  else some ((prices.map Prod.snd).sum / (prices.length : ℚ))

/-- The limited-data fallback of the momentum classification: compare the
first and last daily points with the same ±10% thresholds. -/
def momentumFallback (davgs : List (Nat × ℚ)) : String :=
  if davgs.length ≥ 2 then
    match davgs.head?, davgs.getLast? with
    | some f, some l =>
      if f.2 > 0 then
        if (l.2 - f.2) / f.2 > 0.10 then "rising"
        else if (l.2 - f.2) / f.2 < -0.10 then "falling"
        else "stable"
      else "insufficient_data"
    | _, _ => "insufficient_data"
  else "insufficient_data"

/-- The momentum classification of `calculate_trends`: the 7-vs-30 moving
average comparison when both are defined with `ma_30 > 0`, else the
first-vs-last fallback. -/
def momentumOf (davgs : List (Nat × ℚ)) : String :=
  match maOf davgs 7, maOf davgs 30 with
  | some ma7, some ma30 =>
    if ma30 > 0 then
      if (ma7 - ma30) / ma30 > 0.10 then "rising"
      else if (ma7 - ma30) / ma30 < -0.10 then "falling"
      else "stable"
    else momentumFallback davgs
  | _, _ => momentumFallback davgs

/-- The expression `daily_avgs[-1][1] if daily_avgs else None`. -/
def currentPriceOf (davgs : List (Nat × ℚ)) : Option ℚ :=
  davgs.getLast?.map Prod.snd

/-- The signal logic of `calculate_trends`. Python truthiness of the two
prices is modelled as being present and nonzero. -/
def signalOf (davgs : List (Nat × ℚ)) (momentum : String)
    (currentPrice : Option ℚ) (purchasePrice : ℚ) (daysHeld : Int) :
    String × String :=
  if davgs.length < 3 then ("HOLD", "Insufficient price data")
  else if daysHeld < 30 then
    ("HOLD", "Held " ++ intStr daysHeld ++ " days — too early to signal")
  else if momentum = "falling" then
    match currentPrice with
    | some c =>
      if c ≠ 0 ∧ purchasePrice ≠ 0 ∧ c < purchasePrice then
        ("SELL", "Falling price, below purchase — cut losses")
      else if c ≠ 0 ∧ purchasePrice ≠ 0 ∧ c > purchasePrice * 1.3 then
        ("SELL", "Falling price, still profitable — lock in gains")
      else ("HOLD", "Falling but near purchase price — monitor")
    | none => ("HOLD", "Falling but near purchase price — monitor")
  else if momentum = "rising" then ("HOLD", "Rising trend — hold for gains")
  else ("HOLD", "Stable price — no urgency")

/-- The fingerprint of the spec's scoring scenario: Jane Doe 2024 Prizm,
Base parallel, autograph wanted, raw. -/
def fpJane : Fingerprint :=
  { player := "Jane Doe", year := some 2024, manufacturer := "",
    set := "Prizm", parallel := "Base", numbered := none,
    auto := true, rookie := false, grade := "Raw" }

/-- C1 counterexample: with the two daily points 10.00 then 12.00 the
momentum reported is not "rising" — `_ma` averages all available points
when fewer than the window exist, so `ma_7 = ma_30 = 11.0` and the MA
comparison (difference 0%) classifies "stable"; the first-vs-last
fallback is never reached. -/
theorem C1_counterexample :
    momentumOf (dailyAvgs [(0, 10), (1, 12)]) ≠ "rising" := by decide

/-- C1 amended: with exactly 2 daily price points (10.00 then 12.00),
`calculate_trends` reports momentum = "stable": both moving averages are
defined (each averaging all 2 points, 11.00) so the ±10% MA comparison
applies with a 0% difference, and the first-vs-last fallback is dead for
this history. -/
theorem C1_amended :
    momentumOf (dailyAvgs [(0, 10), (1, 12)]) = "stable" ∧
    maOf (dailyAvgs [(0, 10), (1, 12)]) 7 = some 11 ∧
    maOf (dailyAvgs [(0, 10), (1, 12)]) 30 = some 11 := by decide

/-- C2 counterexample: for the Jane Doe autograph fingerprint and the title
"2024 Panini Prizm Jane Doe Silver Refractor PSA 10 /10",
`score_title_match` returns 0.65, which exceeds 0.5. -/
theorem C2_counterexample :
    ¬ (score_title_match
        "2024 Panini Prizm Jane Doe Silver Refractor PSA 10 /10" fpJane
      ≤ 1/2) := by decide

/-- C2 amended: that title scores exactly 0.65 (player 0.30 + year 0.15 +
set 0.20; the unwanted parallel, grade and missing autograph only withhold
weight) — above 0.5, though strictly below the accepted
"2024 Panini Prizm Jane Doe Auto RC #125" title's 0.825. -/
theorem C2_amended :
    score_title_match
        "2024 Panini Prizm Jane Doe Silver Refractor PSA 10 /10" fpJane
      = 13/20 ∧
    1/2 < score_title_match
        "2024 Panini Prizm Jane Doe Silver Refractor PSA 10 /10" fpJane ∧
    score_title_match
        "2024 Panini Prizm Jane Doe Silver Refractor PSA 10 /10" fpJane
      < score_title_match
        "2024 Panini Prizm Jane Doe Auto RC #125" fpJane := by decide

/-- C4: for every title (including the empty one) and every fingerprint,
`score_title_match` lies in [0.0, 1.0] — the empty-title branch returns
0.0 and every other result is clamped. -/
theorem C4_score_bounds :
    ∀ (title : String) (fp : Fingerprint),
      0 ≤ score_title_match title fp ∧ score_title_match title fp ≤ 1 := by
  intro title fp
  unfold score_title_match
  split
  · norm_num
  · exact ⟨le_max_left 0 _, max_le (by norm_num) (min_le_left 1 _)⟩

/-- C7: the functions are total, and on an absent/empty title `parse_title`
returns the all-empty result (the empty dict, modelled `none`) and
`score_title_match` returns exactly 0.0, for every fingerprint. -/
theorem C7_empty_title :
    ∀ (pn : Option String) (fp : Fingerprint),
      parse_title "" pn = none ∧ score_title_match "" fp = 0 := by
  intro pn fp
  exact ⟨by simp [parse_title], by simp [score_title_match]⟩

/-- C8: with at least 3 daily points, a holding period of at least 30 days,
falling momentum, purchase price 10.00 and current price 14.00 (above
1.3 × 10.00), the signal is SELL and the reason is the lock-in-gains
message, which mentions locking in gains and not cutting losses. -/
theorem C8_profit_protection :
    ∀ (davgs : List (Nat × ℚ)) (daysHeld : Int),
      3 ≤ davgs.length → 30 ≤ daysHeld →
      momentumOf davgs = "falling" →
      currentPriceOf davgs = some 14 →
      signalOf davgs (momentumOf davgs) (currentPriceOf davgs) 10 daysHeld =
        ("SELL", "Falling price, still profitable — lock in gains") ∧
      isSubL "lock in gains".toList
        (signalOf davgs (momentumOf davgs) (currentPriceOf davgs) 10
          daysHeld).2.toList = true ∧
      isSubL "cut losses".toList
        (signalOf davgs (momentumOf davgs) (currentPriceOf davgs) 10
          daysHeld).2.toList = false := by
  intro davgs daysHeld h3 h30 hm hc
  have h1 : ¬ (davgs.length < 3) := by omega
  have h2 : ¬ (daysHeld < 30) := by omega
  rw [hm, hc]
  have heq : signalOf davgs "falling" (some 14) 10 daysHeld =
      ("SELL", "Falling price, still profitable — lock in gains") := by
    unfold signalOf
    rw [if_neg h1, if_neg h2, if_pos rfl]
    decide
  exact ⟨heq, by rw [heq]; decide, by rw [heq]; decide⟩

/-- Witness for C8 at a concrete history: 100.00 followed by seven days at
14.00 (ma_7 = 14, ma_30 = 24.75, 43% below — falling), held 30 days. -/
theorem C8_profit_protection_witness :
    signalOf [(0,100),(1,14),(2,14),(3,14),(4,14),(5,14),(6,14),(7,14)]
        (momentumOf [(0,100),(1,14),(2,14),(3,14),(4,14),(5,14),(6,14),(7,14)])
        (currentPriceOf
          [(0,100),(1,14),(2,14),(3,14),(4,14),(5,14),(6,14),(7,14)])
        10 30 =
      ("SELL", "Falling price, still profitable — lock in gains") ∧
    isSubL "lock in gains".toList
      (signalOf [(0,100),(1,14),(2,14),(3,14),(4,14),(5,14),(6,14),(7,14)]
        (momentumOf [(0,100),(1,14),(2,14),(3,14),(4,14),(5,14),(6,14),(7,14)])
        (currentPriceOf
          [(0,100),(1,14),(2,14),(3,14),(4,14),(5,14),(6,14),(7,14)])
        10 30).2.toList = true ∧
    isSubL "cut losses".toList
      (signalOf [(0,100),(1,14),(2,14),(3,14),(4,14),(5,14),(6,14),(7,14)]
        (momentumOf [(0,100),(1,14),(2,14),(3,14),(4,14),(5,14),(6,14),(7,14)])
        (currentPriceOf
          [(0,100),(1,14),(2,14),(3,14),(4,14),(5,14),(6,14),(7,14)])
        10 30).2.toList = false :=
  C8_profit_protection
    [(0,100),(1,14),(2,14),(3,14),(4,14),(5,14),(6,14),(7,14)] 30
    (by decide) (by decide) (by decide) (by decide)

theorem exists_of_isPrefixOf {α : Type} [BEq α] [LawfulBEq α] {l s : List α}
    (h : l.isPrefixOf s = true) :
    ∃ rest, s = l ++ rest := by
  induction l generalizing s with
  | nil => exact ⟨s, rfl⟩
  | cons a as ih =>
    cases s with
    | nil => simp [List.isPrefixOf] at h
    | cons b bs =>
      simp only [List.isPrefixOf, Bool.and_eq_true, beq_iff_eq] at h
      rcases ih h.2 with ⟨r, hr⟩
      exact ⟨r, by simp [h.1, hr]⟩

theorem isPrefixOf_append_self {α : Type} [BEq α] [LawfulBEq α]
    (l t : List α) : l.isPrefixOf (l ++ t) = true := by
  induction l with
  | nil => simp [List.isPrefixOf]
  | cons a as ih => simp [List.isPrefixOf, ih]

theorem findSome_isSome_of_mem {α β : Type} (f : α → Option β) (l : List α)
    (x : α) (hx : x ∈ l) (hf : (f x).isSome) : (l.findSome? f).isSome := by
  induction l with
  | nil => simp at hx
  | cons a as ih =>
    rw [List.findSome?]
    cases hfa : f a with
    | some b => simp
    | none =>
      rcases List.mem_cons.mp hx with h | h
      · rw [← h] at hfa; rw [hfa] at hf; simp at hf
      · simpa using ih h

theorem isPySpace_of_digit {d : Char} (hd : d.isDigit = true) :
    isPySpace d = false := by
  unfold isPySpace
  simp only [Bool.or_eq_false_iff, decide_eq_false_iff_not]
  refine ⟨⟨⟨⟨⟨?_, ?_⟩, ?_⟩, ?_⟩, ?_⟩, ?_⟩ <;>
    · intro he
      rw [he] at hd
      exact absurd hd (by decide)

theorem dropWhile_spaces_append (sp rest : List Char)
    (hsp : ∀ c ∈ sp, isPySpace c = true) (d : Char)
    (hd : isPySpace d = false) :
    (sp ++ d :: rest).dropWhile isPySpace = d :: rest := by
  induction sp with
  | nil => simp [List.dropWhile, hd]
  | cons c cs ih =>
    have hc := hsp c (by simp)
    simp only [List.cons_append, List.dropWhile, hc]
    exact ih (fun x hx => hsp x (by simp [hx]))

/-- C9: rookie detection is raw substring containment: any non-empty title
whose lower-cased text contains the two-character sequence "rc" anywhere —
word boundaries be damned — parses with `is_rookie = 1`. -/
theorem C9_rookie_substring :
    ∀ (t : String) (pn : Option String), t ≠ "" →
      isSubL "rc".toList (lowerL t.toList) = true →
      ∃ r, parse_title t pn = some r ∧ r.is_rookie = 1 := by
  intro t pn ht hrc
  unfold parse_title
  rw [if_neg ht]
  refine ⟨_, rfl, ?_⟩
  have hrc' : isSubL ['r', 'c'] (lowerL t.data) = true := hrc
  simp [ROOKIE_KEYWORDS, hrc']

/-- Witness for C9: "porcelain" contains "rc" inside a word and is
reported as a rookie card. -/
theorem C9_rookie_substring_witness :
    (parse_title "porcelain" none).map (fun r => r.is_rookie) = some 1 := by
  rcases C9_rookie_substring "porcelain" none (by decide) (by decide) with
    ⟨r, hr, h1⟩
  rw [hr]
  simp [h1]

theorem takeWhile_cons_pos {p : Char → Bool} {a : Char} (l : List Char)
    (h : p a = true) : (a :: l).takeWhile p = a :: l.takeWhile p := by
  simp [List.takeWhile, h]

theorem numberedAt_slash_isSome (d : Char) (hd : d.isDigit = true)
    (rest : List Char) : (numberedAt ('/' :: d :: rest)).isSome := by
  have hred : numberedAt ('/' :: d :: rest) =
      numberedTrigger '/' (d :: rest) := rfl
  rw [hred]
  unfold numberedTrigger
  rw [if_pos rfl, takeWhile_cons_pos _ hd]
  simp

theorem numberedAt_hash_isSome (d : Char) (hd : d.isDigit = true)
    (rest : List Char) : (numberedAt ('#' :: d :: rest)).isSome := by
  have hred : numberedAt ('#' :: d :: rest) =
      numberedTrigger '#' (d :: rest) := rfl
  rw [hred]
  unfold numberedTrigger
  rw [if_neg (by decide : ¬ ('#' : Char) = '/'), if_pos rfl,
    takeWhile_cons_pos _ hd]
  simp

theorem numberedAt_word_isSome (sp rest : List Char) (d : Char)
    (hd : d.isDigit = true) (hsp : ∀ c ∈ sp, isPySpace c = true) :
    (numberedAt
      ('n':: 'u':: 'm':: 'b':: 'e':: 'r':: 'e':: 'd':: (sp ++ d :: rest))).isSome := by
  have hred :
      numberedAt ('n':: 'u':: 'm':: 'b':: 'e':: 'r':: 'e':: 'd':: (sp ++ d :: rest)) =
        numberedTrigger 'n'
          ('u':: 'm':: 'b':: 'e':: 'r':: 'e':: 'd':: (sp ++ d :: rest)) := rfl
  rw [hred]
  unfold numberedTrigger
  rw [if_neg (by decide : ¬ ('n' : Char) = '/'),
    if_neg (by decide : ¬ ('n' : Char) = '#')]
  have htake :
      (('n'::('u':: 'm':: 'b':: 'e':: 'r':: 'e':: 'd':: (sp ++ d :: rest))).take 8) =
        ['n','u','m','b','e','r','e','d'] := rfl
  have hdrop :
      (('n'::('u':: 'm':: 'b':: 'e':: 'r':: 'e':: 'd':: (sp ++ d :: rest))).drop 8) =
        sp ++ d :: rest := rfl
  rw [htake, hdrop, if_pos (by decide),
    dropWhile_spaces_append sp rest hsp d (isPySpace_of_digit hd),
    takeWhile_cons_pos _ hd]
  simp

/-- C10: numbered detection fires on "#", "/" or "numbered" followed by
digits, with no context check — a plain card number like "#125" sets
`is_numbered = 1` and `numbered_to` to that number even though it is not a
serial print run; the value comes from the leftmost trigger's digit group. -/
theorem C10_numbered_detection :
    (∀ (t : String) (pn : Option String) (d : Char), d.isDigit = true →
        isSubL ['#', d] t.toList = true →
        ∃ r, parse_title t pn = some r ∧ r.is_numbered = 1) ∧
    (∀ (t : String) (pn : Option String) (d : Char), d.isDigit = true →
        isSubL ['/', d] t.toList = true →
        ∃ r, parse_title t pn = some r ∧ r.is_numbered = 1) ∧
    (∀ (t : String) (pn : Option String) (d : Char) (sp : List Char),
        d.isDigit = true → (∀ c ∈ sp, isPySpace c = true) →
        isSubL ("numbered".toList ++ sp ++ [d]) t.toList = true →
        ∃ r, parse_title t pn = some r ∧ r.is_numbered = 1) ∧
    ((parse_title "2024 Prizm Jane Doe #125" none).map
        (fun r => (r.is_numbered, r.numbered_to)) = some (1, some 125)) := by
  refine ⟨?_, ?_, ?_, by decide⟩
  · intro t pn d hd hsub
    have ht : t ≠ "" := by
      intro he
      subst he
      have hnil : ("" : String).toList = [] := rfl
      rw [hnil] at hsub
      simp [isSubL, List.isPrefixOf] at hsub
    rcases List.any_eq_true.mp hsub with ⟨sfx, hsfx, hpre⟩
    rcases exists_of_isPrefixOf hpre with ⟨rest, hrest⟩
    have hsome : (numberedSearch t.toList).isSome := by
      apply findSome_isSome_of_mem _ _ sfx hsfx
      rw [hrest]
      exact numberedAt_hash_isSome d hd rest
    unfold parse_title
    rw [if_neg ht]
    refine ⟨_, rfl, ?_⟩
    have hsome' : (numberedSearch t.data).isSome = true := hsome
    simp [hsome']
  · intro t pn d hd hsub
    have ht : t ≠ "" := by
      intro he
      subst he
      have hnil : ("" : String).toList = [] := rfl
      rw [hnil] at hsub
      simp [isSubL, List.isPrefixOf] at hsub
    rcases List.any_eq_true.mp hsub with ⟨sfx, hsfx, hpre⟩
    rcases exists_of_isPrefixOf hpre with ⟨rest, hrest⟩
    have hsome : (numberedSearch t.toList).isSome := by
      apply findSome_isSome_of_mem _ _ sfx hsfx
      rw [hrest]
      exact numberedAt_slash_isSome d hd rest
    unfold parse_title
    rw [if_neg ht]
    refine ⟨_, rfl, ?_⟩
    have hsome' : (numberedSearch t.data).isSome = true := hsome
    simp [hsome']
  · intro t pn d sp hd hsp hsub
    have ht : t ≠ "" := by
      intro he
      subst he
      have hnil : ("" : String).toList = [] := rfl
      rw [hnil] at hsub
      simp [isSubL, List.isPrefixOf] at hsub
    rcases List.any_eq_true.mp hsub with ⟨sfx, hsfx, hpre⟩
    rcases exists_of_isPrefixOf hpre with ⟨rest, hrest⟩
    have hsome : (numberedSearch t.toList).isSome := by
      apply findSome_isSome_of_mem _ _ sfx hsfx
      rw [hrest]
      have hshape :
          ("numbered".toList ++ sp ++ [d]) ++ rest =
            'n':: 'u':: 'm':: 'b':: 'e':: 'r':: 'e':: 'd':: (sp ++ d :: rest) := by
        simp
      rw [hshape]
      exact numberedAt_word_isSome sp rest d hd hsp
    unfold parse_title
    rw [if_neg ht]
    refine ⟨_, rfl, ?_⟩
    have hsome' : (numberedSearch t.data).isSome = true := hsome
    simp [hsome']

/-- Witness for C10 at "#9", "x/9" and "numbered 9". -/
theorem C10_numbered_detection_witness :
    (parse_title "#9" none).map (fun r => r.is_numbered) = some 1 ∧
    (parse_title "x/9" none).map (fun r => r.is_numbered) = some 1 ∧
    (parse_title "numbered 9" none).map (fun r => r.is_numbered) = some 1 := by
  refine ⟨?_, ?_, ?_⟩
  · rcases C10_numbered_detection.1 "#9" none '9' (by decide) (by decide) with
      ⟨r, hr, h1⟩
    rw [hr]
    simp [h1]
  · rcases C10_numbered_detection.2.1 "x/9" none '9' (by decide) (by decide)
      with ⟨r, hr, h1⟩
    rw [hr]
    simp [h1]
  · rcases C10_numbered_detection.2.2.1 "numbered 9" none '9' [' ']
      (by decide) (by decide) (by decide) with ⟨r, hr, h1⟩
    rw [hr]
    simp [h1]

theorem hasBgs95_of_sub (t sp : List Char)
    (hsp : ∀ c ∈ sp, isPySpace c = true)
    (h : isSubL ("bgs".toList ++ (sp ++ "9.5".toList)) t = true) :
    hasBgs95 t = true := by
  rcases List.any_eq_true.mp h with ⟨sfx, hsfx, hpre⟩
  rcases exists_of_isPrefixOf hpre with ⟨rest, hrest⟩
  unfold hasBgs95 searchAny
  apply List.any_eq_true.mpr
  refine ⟨sfx, hsfx, ?_⟩
  rw [hrest]
  have hshape : ("bgs".toList ++ (sp ++ "9.5".toList)) ++ rest =
      "bgs".toList ++ (sp ++ ('9' :: '.' :: '5' :: rest)) := by simp
  rw [hshape]
  unfold gradeAt
  rw [isPrefixOf_append_self, List.drop_left,
    dropWhile_spaces_append sp ('.' :: '5' :: rest) hsp '9' (by decide)]
  simp [tail95]

theorem findGrade_of_bgs95 (tl : List Char) (h95 : hasBgs95 tl = true) :
    findGrade tl ≠ some "BGS 9" ∧
    (hasPsa10 tl = false → hasPsa9 tl = false → hasPsa8 tl = false →
     hasPsa7 tl = false → hasBgs10 tl = false →
     findGrade tl = some "BGS 9.5") := by
  unfold findGrade GRADE_PATTERNS
  cases h1 : hasPsa10 tl <;> cases h2 : hasPsa9 tl <;>
    cases h3 : hasPsa8 tl <;> cases h4 : hasPsa7 tl <;>
      cases h5 : hasBgs10 tl <;>
        simp [List.find?, h1, h2, h3, h4, h5, h95]

/-- C6 counterexample: "psa 10 bgs 9.5" contains "bgs 9.5" but parses as
grade "PSA 10", because every PSA pattern is tried before the BGS ones. -/
theorem C6_counterexample :
    isSubL "bgs 9.5".toList (lowerL "psa 10 bgs 9.5".toList) = true ∧
    (parse_title "psa 10 bgs 9.5" none).map (fun r => r.grade) =
      some (some "PSA 10") := by decide

/-- C6 amended: for every title whose lower-cased text contains "bgs",
arbitrary whitespace, then "9.5", the parsed grade is never "BGS 9" (the
9.5 pattern is tried before the bare-9 pattern, whose negative lookahead
also rejects a following dot); it is exactly "BGS 9.5" provided no
earlier-priority pattern (PSA 10/9/8/7 or BGS 10) also matches. -/
theorem C6_grade_priority :
    ∀ (t : String) (sp : List Char), (∀ c ∈ sp, isPySpace c = true) →
      isSubL ("bgs".toList ++ (sp ++ "9.5".toList)) (lowerL t.toList) = true →
      ∃ r, parse_title t none = some r ∧ r.grade ≠ some "BGS 9" ∧
        (hasPsa10 (lowerL t.toList) = false →
         hasPsa9 (lowerL t.toList) = false →
         hasPsa8 (lowerL t.toList) = false →
         hasPsa7 (lowerL t.toList) = false →
         hasBgs10 (lowerL t.toList) = false →
         r.grade = some "BGS 9.5") := by
  intro t sp hsp hsub
  have h95 := hasBgs95_of_sub (lowerL t.toList) sp hsp hsub
  have hfg := findGrade_of_bgs95 (lowerL t.toList) h95
  have ht : t ≠ "" := by
    intro he
    subst he
    have hnil : lowerL ("" : String).toList = [] := rfl
    rw [hnil] at hsub
    simp [isSubL, List.isPrefixOf] at hsub
  unfold parse_title
  rw [if_neg ht]
  exact ⟨_, rfl, hfg.1, hfg.2⟩

/-- Witness for C6: "bgs 9.5" alone parses as grade "BGS 9.5". -/
theorem C6_grade_priority_witness :
    (parse_title "bgs 9.5" none).map (fun r => r.grade) =
      some (some "BGS 9.5") := by
  rcases C6_grade_priority "bgs 9.5" [' '] (by decide) (by decide) with
    ⟨r, hr, hne, h95⟩
  rw [hr]
  simp [h95 (by decide) (by decide) (by decide) (by decide) (by decide)]

theorem prefixOf_append {α : Type} [BEq α] [LawfulBEq α] (a b c : List α)
    (h : b.isPrefixOf c = true) : (a ++ b).isPrefixOf (a ++ c) = true := by
  induction a with
  | nil => simpa using h
  | cons x xs ih => simp [List.isPrefixOf, ih]

theorem mem_of_isPrefixOf {α : Type} [BEq α] [LawfulBEq α] {l L : List α}
    (h : l.isPrefixOf L = true) : ∀ x ∈ l, x ∈ L := by
  rcases exists_of_isPrefixOf h with ⟨r, hr⟩
  intro x hx
  rw [hr]
  exact List.mem_append_left r hx

theorem intStr_ne_empty (i : Int) : intStr i ≠ "" := by
  unfold intStr
  split
  · intro h
    have hd : ('-' :: natDigits i.natAbs : List Char) = [] :=
      congrArg String.data h
    exact absurd hd (by simp)
  · intro h
    have hd : natDigits i.natAbs = [] := congrArg String.data h
    exact absurd hd (natDigits_ne_nil i.natAbs)

theorem slash_intStr_ne_empty (i : Int) : "/" ++ intStr i ≠ "" := by
  intro h
  have hd : ('/' :: (intStr i).data : List Char) = [] := congrArg String.data h
  exact absurd hd (by simp)

/-- A fingerprint whose player name is empty, exercising the unconditional
player slot of `build_ebay_query`. -/
def fpNoPlayer : Fingerprint :=
  { player := "", year := some 2024, manufacturer := "", set := "Prizm",
    parallel := "Base", numbered := none, auto := false, rookie := false,
    grade := "Raw" }

/-- C5 counterexample: the player field is emitted unconditionally, so an
empty player name produces an empty token and a query with a leading
space. -/
theorem C5_counterexample :
    "" ∈ buildEbayQueryParts fpNoPlayer 1 ∧
    build_ebay_query fpNoPlayer 3 = " 2024 Prizm" := by decide

theorem yearPart_ne_empty (fp : Fingerprint) :
    ∀ x ∈ yearPart fp, x ≠ "" := by
  unfold yearPart
  cases fp.year with
  | none => simp
  | some y =>
    show ∀ x ∈ (if y ≠ 0 then [intStr y] else []), x ≠ ""
    by_cases hy : y ≠ 0
    · rw [if_pos hy]
      intro x hx
      simp at hx
      rw [hx]
      exact intStr_ne_empty y
    · rw [if_neg hy]
      simp

theorem setPart_ne_empty (fp : Fingerprint) (level : Nat) :
    ∀ x ∈ setPart fp level, x ≠ "" := by
  unfold setPart
  split
  · rename_i hc
    intro x hx
    simp at hx
    rw [hx]
    exact hc.2
  · simp

theorem parallelPart_ne_empty (fp : Fingerprint) (level : Nat) :
    ∀ x ∈ parallelPart fp level, x ≠ "" := by
  unfold parallelPart
  split
  · rename_i hc
    intro x hx
    simp at hx
    rw [hx]
    exact hc.2.1
  · simp

theorem level1Part_ne_empty (fp : Fingerprint) (level : Nat) :
    ∀ x ∈ level1Part fp level, x ≠ "" := by
  unfold level1Part
  split
  · intro x hx
    rcases List.mem_append.mp hx with h | hN
    · rcases List.mem_append.mp h with hA | hG
      · split at hA
        · simp at hA
          rw [hA]
          decide
        · simp at hA
      · split at hG
        · rename_i hc
          simp at hG
          rw [hG]
          exact hc.1
        · simp at hG
    · cases hfn : fp.numbered with
      | none => rw [hfn] at hN; simp at hN
      | some n =>
        rw [hfn] at hN
        have hN' : x ∈ (if n ≠ 0 then ["/" ++ intStr n] else []) := hN
        by_cases hn0 : n ≠ 0
        · rw [if_pos hn0] at hN'
          simp at hN'
          rw [hN']
          exact slash_intStr_ne_empty n
        · rw [if_neg hn0] at hN'
          simp at hN'
  · simp

theorem setPart_eq_23 (fp : Fingerprint) : setPart fp 3 = setPart fp 2 := by
  unfold setPart
  norm_num

theorem setPart_eq_12 (fp : Fingerprint) : setPart fp 2 = setPart fp 1 := by
  unfold setPart
  norm_num

theorem parallelPart_eq_12 (fp : Fingerprint) :
    parallelPart fp 2 = parallelPart fp 1 := by
  unfold parallelPart
  norm_num

theorem parallelPart_3 (fp : Fingerprint) : parallelPart fp 3 = [] := by
  unfold parallelPart
  norm_num

theorem level1Part_3 (fp : Fingerprint) : level1Part fp 3 = [] := by
  unfold level1Part
  norm_num

theorem level1Part_2 (fp : Fingerprint) : level1Part fp 2 = [] := by
  unfold level1Part
  norm_num

/-- C5 amended: the token lists of the query cascade are nested prefixes
(level 3 of level 2 of level 1), hence subsets, in the fixed order player,
year, set, parallel, auto-flag, grade, numbering; every token after the
first is nonempty (absent/empty fields are skipped) — but the leading
player token is emitted unconditionally, even when empty. -/
theorem C5_query_cascade :
    ∀ (fp : Fingerprint),
      (buildEbayQueryParts fp 3).isPrefixOf (buildEbayQueryParts fp 2)
        = true ∧
      (buildEbayQueryParts fp 2).isPrefixOf (buildEbayQueryParts fp 1)
        = true ∧
      (∀ x ∈ buildEbayQueryParts fp 3, x ∈ buildEbayQueryParts fp 2) ∧
      (∀ x ∈ buildEbayQueryParts fp 2, x ∈ buildEbayQueryParts fp 1) ∧
      (∀ level : Nat, (buildEbayQueryParts fp level).head? = some fp.player) ∧
      (∀ level : Nat, ∀ x ∈ (buildEbayQueryParts fp level).drop 1,
        x ≠ "") := by
  intro fp
  have hpre32 :
      (buildEbayQueryParts fp 3).isPrefixOf (buildEbayQueryParts fp 2)
        = true := by
    unfold buildEbayQueryParts
    rw [setPart_eq_23, parallelPart_3, level1Part_3, level1Part_2,
      List.append_nil, List.append_nil, List.append_nil]
    exact isPrefixOf_append_self _ _
  have hpre21 :
      (buildEbayQueryParts fp 2).isPrefixOf (buildEbayQueryParts fp 1)
        = true := by
    unfold buildEbayQueryParts
    rw [setPart_eq_12, parallelPart_eq_12, level1Part_2, List.append_nil]
    exact isPrefixOf_append_self _ _
  refine ⟨hpre32, hpre21, mem_of_isPrefixOf hpre32,
    mem_of_isPrefixOf hpre21, ?_, ?_⟩
  · intro level
    simp [buildEbayQueryParts]
  · intro level x hx
    unfold buildEbayQueryParts at hx
    simp only [List.singleton_append, List.cons_append, List.drop_succ_cons,
      List.drop_zero] at hx
    rcases List.mem_append.mp hx with h | hL
    · rcases List.mem_append.mp h with h | hPa
      · rcases List.mem_append.mp h with hY | hS
        · exact yearPart_ne_empty fp x hY
        · exact setPart_ne_empty fp level x hS
      · exact parallelPart_ne_empty fp level x hPa
    · exact level1Part_ne_empty fp level x hL

/-- Witness for C5 at a fully populated fingerprint. -/
theorem C5_query_cascade_witness :
    "Prizm" ∈ buildEbayQueryParts
      { player := "Jane Doe", year := some 2024, manufacturer := "Panini",
        set := "Prizm", parallel := "Silver", numbered := some 25,
        auto := true, rookie := true, grade := "PSA 10" } 1 :=
  (C5_query_cascade
    { player := "Jane Doe", year := some 2024, manufacturer := "Panini",
      set := "Prizm", parallel := "Silver", numbered := some 25,
      auto := true, rookie := true, grade := "PSA 10" }).2.2.2.1 "Prizm"
    (by decide)

theorem playerComp_bounds (fp : Fingerprint) (t : String) :
    0 ≤ playerComp fp t ∧ playerComp fp t ≤ 3/10 := by
  unfold playerComp wPlayer
  split
  · have hf := fuzzyMatch_bounds fp.player t
    constructor
    · exact mul_nonneg (by norm_num) hf.1
    · have h2 := mul_le_mul_of_nonneg_left hf.2
        (show (0:ℚ) ≤ 0.30 by norm_num)
      have h3 : (0.30 : ℚ) * 1 = 0.30 := by norm_num
      rw [h3] at h2
      linarith
  · norm_num

theorem setComp_bounds (fp : Fingerprint) (t : String) :
    0 ≤ setComp fp t ∧ setComp fp t ≤ 1/5 := by
  unfold setComp wSet
  split
  · have hf := fuzzyMatch_bounds fp.set t
    constructor
    · exact mul_nonneg (by norm_num) hf.1
    · have h2 := mul_le_mul_of_nonneg_left hf.2
        (show (0:ℚ) ≤ 0.20 by norm_num)
      have h3 : (0.20 : ℚ) * 1 = 0.20 := by norm_num
      rw [h3] at h2
      linarith
  · norm_num

theorem yearComp_bounds (fp : Fingerprint) (t : String) :
    0 ≤ yearComp fp t ∧ yearComp fp t ≤ 3/20 := by
  unfold yearComp wYear
  cases fp.year with
  | none => norm_num
  | some y =>
    dsimp only
    split_ifs <;> norm_num

theorem parallelComp_bounds (fp : Fingerprint) (t : String) :
    0 ≤ parallelComp fp t ∧ parallelComp fp t ≤ 3/20 := by
  unfold parallelComp wParallel
  split_ifs
  · have hf := fuzzyMatch_bounds fp.parallel t
    constructor
    · exact mul_nonneg (by norm_num) hf.1
    · have h2 := mul_le_mul_of_nonneg_left hf.2
        (show (0:ℚ) ≤ 0.15 by norm_num)
      have h3 : (0.15 : ℚ) * 1 = 0.15 := by norm_num
      rw [h3] at h2
      linarith
  · norm_num
  · norm_num
  · norm_num

theorem gradeComp_bounds (fp : Fingerprint) (t : String) :
    0 ≤ gradeComp fp t ∧ gradeComp fp t ≤ 1/20 := by
  unfold gradeComp wGrade
  split_ifs <;> norm_num

theorem numberedComp_bounds (fp : Fingerprint) (t : String) :
    0 ≤ numberedComp fp t ∧ numberedComp fp t ≤ 1/20 := by
  unfold numberedComp wNumbered
  cases fp.numbered with
  | none => norm_num
  | some n =>
    dsimp only
    split_ifs <;> norm_num

theorem autoComp_no_kw (fp : Fingerprint) (t : String)
    (h : titleHasAutoKeyword (lowerL t.toList) = false) :
    autoComp fp t = 0 := by
  have h2 : titleHasAutoKeyword (lowerL t.data) = false := h
  cases h' : fp.auto <;> simp [autoComp, h', h2]

theorem autoComp_kw_true (fp : Fingerprint) (t : String)
    (hfa : fp.auto = true)
    (h : titleHasAutoKeyword (lowerL t.toList) = true) :
    autoComp fp t = 1/10 := by
  have h2 : titleHasAutoKeyword (lowerL t.data) = true := h
  simp [autoComp, hfa, h2, wAuto]
  norm_num

theorem autoComp_kw_false (fp : Fingerprint) (t : String)
    (hfa : fp.auto = false)
    (h : titleHasAutoKeyword (lowerL t.toList) = true) :
    autoComp fp t = -(1/20) := by
  have h2 : titleHasAutoKeyword (lowerL t.data) = true := h
  simp [autoComp, hfa, h2, wAuto]
  norm_num

/-- The fingerprint of the C3 counterexample: wants nothing in particular
(Base parallel, raw, no autograph). -/
def fpBaseRaw : Fingerprint :=
  { player := "", year := none, manufacturer := "", set := "",
    parallel := "Base", numbered := none, auto := false, rookie := false,
    grade := "Raw" }

/-- C3 counterexample: for a no-autograph fingerprint, the title "silver"
(containing a parallel keyword, so the Base half-credit is withheld)
scores 0.0, and appending " auto" leaves the clamped score at 0.0 — not
strictly lower, refuting the claimed strict inequality. -/
theorem C3_counterexample :
    fpBaseRaw.auto = false ∧
    titleHasAutoKeyword (lowerL "silver".toList) = false ∧
    titleHasAutoKeyword (lowerL ("silver" ++ " auto").toList) = true ∧
    ¬ (score_title_match ("silver" ++ " auto") fpBaseRaw <
        score_title_match "silver" fpBaseRaw) := by decide

/-- C3 amended: comparing a title without an autograph keyword to one with
it, when every other scoring component is unchanged: for a fingerprint
with `auto = False` the keyworded title scores lower-or-equal, strictly
lower whenever the unkeyworded score is positive (the 0.0 clamp can absorb
the −0.05 penalty); for `auto = True` it scores strictly higher, always. -/
theorem C3_auto_asymmetry :
    ∀ (fp : Fingerprint) (t t' : String), t ≠ "" → t' ≠ "" →
      titleHasAutoKeyword (lowerL t.toList) = false →
      titleHasAutoKeyword (lowerL t'.toList) = true →
      playerComp fp t' = playerComp fp t →
      yearComp fp t' = yearComp fp t →
      setComp fp t' = setComp fp t →
      parallelComp fp t' = parallelComp fp t →
      gradeComp fp t' = gradeComp fp t →
      numberedComp fp t' = numberedComp fp t →
      ((fp.auto = false →
          score_title_match t' fp ≤ score_title_match t fp ∧
          (0 < score_title_match t fp →
            score_title_match t' fp < score_title_match t fp)) ∧
       (fp.auto = true →
          score_title_match t fp < score_title_match t' fp)) := by
  intro fp t t' ht ht' hkw hkw' hp hy hs hpar hg hn
  have hP := playerComp_bounds fp t
  have hY := yearComp_bounds fp t
  have hSe := setComp_bounds fp t
  have hPa := parallelComp_bounds fp t
  have hG := gradeComp_bounds fp t
  have hN := numberedComp_bounds fp t
  have hsc : score_title_match t fp =
      max 0 (min 1 (playerComp fp t + yearComp fp t + setComp fp t +
        parallelComp fp t + autoComp fp t + gradeComp fp t +
        numberedComp fp t)) := by
    unfold score_title_match
    rw [if_neg ht]
  have hsc' : score_title_match t' fp =
      max 0 (min 1 (playerComp fp t' + yearComp fp t' + setComp fp t' +
        parallelComp fp t' + autoComp fp t' + gradeComp fp t' +
        numberedComp fp t')) := by
    unfold score_title_match
    rw [if_neg ht']
  rw [hp, hy, hs, hpar, hg, hn] at hsc'
  rw [autoComp_no_kw fp t hkw] at hsc
  have hmin : min 1 (playerComp fp t + yearComp fp t + setComp fp t +
      parallelComp fp t + 0 + gradeComp fp t + numberedComp fp t) =
      playerComp fp t + yearComp fp t + setComp fp t +
        parallelComp fp t + 0 + gradeComp fp t + numberedComp fp t :=
    min_eq_right (by linarith)
  have hmax : max 0 (playerComp fp t + yearComp fp t + setComp fp t +
      parallelComp fp t + 0 + gradeComp fp t + numberedComp fp t) =
      playerComp fp t + yearComp fp t + setComp fp t +
        parallelComp fp t + 0 + gradeComp fp t + numberedComp fp t :=
    max_eq_right (by linarith)
  rw [hmin, hmax] at hsc
  constructor
  · intro hfa
    rw [autoComp_kw_false fp t' hfa hkw'] at hsc'
    have hminE : min 1 (playerComp fp t + yearComp fp t + setComp fp t +
        parallelComp fp t + -(1/20) + gradeComp fp t + numberedComp fp t) =
        playerComp fp t + yearComp fp t + setComp fp t +
          parallelComp fp t + -(1/20) + gradeComp fp t + numberedComp fp t :=
      min_eq_right (by linarith)
    rw [hminE] at hsc'
    constructor
    · rw [hsc, hsc']
      apply max_le (by linarith) (by linarith)
    · intro hpos
      rw [hsc] at hpos
      rw [hsc, hsc']
      apply max_lt hpos (by linarith)
  · intro hfa
    rw [autoComp_kw_true fp t' hfa hkw'] at hsc'
    have hminE : min 1 (playerComp fp t + yearComp fp t + setComp fp t +
        parallelComp fp t + 1/10 + gradeComp fp t + numberedComp fp t) =
        playerComp fp t + yearComp fp t + setComp fp t +
          parallelComp fp t + 1/10 + gradeComp fp t + numberedComp fp t :=
      min_eq_right (by linarith)
    have hmaxE : max 0 (playerComp fp t + yearComp fp t + setComp fp t +
        parallelComp fp t + 1/10 + gradeComp fp t + numberedComp fp t) =
        playerComp fp t + yearComp fp t + setComp fp t +
          parallelComp fp t + 1/10 + gradeComp fp t + numberedComp fp t :=
      max_eq_right (by linarith)
    rw [hminE, hmaxE] at hsc'
    rw [hsc, hsc']
    linarith

/-- Witness for C3 at a fingerprint wanting an autograph: "jane" vs
"jane auto" with all other components unchanged. -/
theorem C3_auto_asymmetry_witness :
    score_title_match "jane"
        { player := "jane", year := none, manufacturer := "", set := "",
          parallel := "", numbered := none, auto := true, rookie := false,
          grade := "" } <
      score_title_match "jane auto"
        { player := "jane", year := none, manufacturer := "", set := "",
          parallel := "", numbered := none, auto := true, rookie := false,
          grade := "" } :=
  (C3_auto_asymmetry
    { player := "jane", year := none, manufacturer := "", set := "",
      parallel := "", numbered := none, auto := true, rookie := false,
      grade := "" } "jane" "jane auto"
    (by decide) (by decide) (by decide) (by decide) (by decide) (by decide)
    (by decide) (by decide) (by decide) (by decide)).2 rfl
